import Mathlib

/-
  A shallow embedding of the C tracer in coverage/tracer.c (the `Tracer`
  struct and its trace function `Tracer_trace`), together with proofs of
  the specified properties.

  Modelling conventions:
  * The `tracenames` array (`PyObject ** tracenames`, allocated with
    `tracenames_alloc` entries) is modelled as a `List Slot` whose length
    is exactly `tracenames_alloc`; an entry is `Slot.uninit` while the C
    memory is still uninitialized, `Slot.null` after the code stored NULL,
    and `Slot.name t` after the code stored the string `t`.
  * Python objects returned by the `should_trace` callable are modelled by
    `PyVal`: `PyVal.str s` is a Python string (for which `PyString_Check`
    is true) and `PyVal.nonstr` is any non-string object (e.g. None).
  * The dictionaries `should_trace_cache` and `data` are modelled as
    association lists with first-match lookup and replace-or-append
    insertion, matching `PyDict_GetItem` / `PyDict_SetItem` semantics on
    the keys the code uses.  For `data` only the keys matter (every value
    is `Py_None`), so it is modelled as the list of `(tracename, lineno)`
    keys in insertion order.
  * The C trace function returns 0 on success and -1 on error while
    mutating `self` in place; it is modelled as
    `Except TracerState TracerState` where `Except.ok s` is "returned 0
    with new state s" and `Except.error s` is "returned -1 with new
    state s".
  * `PyMem_Realloc` of the tracenames array can fail; each event carries
    an allocation oracle `allocOk : Bool` saying whether a reallocation
    attempted while handling that event succeeds.
  * The field `st_calls` is ghost instrumentation: it records, in order,
    the filenames on which the external `should_trace` callable was
    actually invoked (cache misses).  No other field or branch depends on
    it; it exists only to state the memoization property.
  * After returning -1 the tracer is unhooked by the host, so a run
    (`runTrace`) processes events until the first error and stops there.
-/

/-- Event kinds delivered to the trace function: PyTrace_CALL = 0,
PyTrace_EXCEPTION = 1, PyTrace_LINE = 2, PyTrace_RETURN = 3. -/
inductive What : Type
  | call
  | exc
  | line
  | ret
deriving DecidableEq

/-- The parts of a PyFrameObject the tracer reads: `f_code->co_filename`
and `f_lineno`. -/
structure Frame where
  filename : String
  lineno : Int
deriving DecidableEq

/-- A Python object as far as the tracer can distinguish it: a string
(`PyString_Check` true) or anything else (None, False, ...). -/
inductive PyVal : Type
  | str (s : String)
  | nonstr
deriving DecidableEq

/-- One entry of the `tracenames` array: uninitialized memory, a stored
NULL (do not trace at this depth), or a stored tracename string. -/
inductive Slot : Type
  | uninit
  | null
  | name (t : String)
deriving DecidableEq

/-- State of the Tracer struct: `should_trace_cache` and `data` dicts,
`depth`, and the `tracenames` array (its length is `tracenames_alloc`).
`st_calls` is ghost instrumentation recording invocations of the external
`should_trace` callable. -/
structure TracerState where
  should_trace_cache : List (String × PyVal)
  data : List (String × Int)
  depth : Int
  tracenames : List Slot
  st_calls : List String
deriving DecidableEq

/-- TRACENAMES_DELTA from tracer.c: growth increment of the array. -/
def TRACENAMES_DELTA : Nat := 100

/-- `PyDict_GetItem` on a string-keyed dict modelled as an assoc list. -/
def dictGet (d : List (String × PyVal)) (k : String) : Option PyVal :=
  match d with
  | [] => none
  | (k₀, v₀) :: rest => if k₀ = k then some v₀ else dictGet rest k

/-- `PyDict_SetItem` on a string-keyed dict modelled as an assoc list:
replace the existing binding or append a new one. -/
def dictSet (d : List (String × PyVal)) (k : String) (v : PyVal) :
    List (String × PyVal) :=
  match d with
  | [] => [(k, v)]
  | (k₀, v₀) :: rest =>
      if k₀ = k then (k, v) :: rest else (k₀, v₀) :: dictSet rest k v

/-- `PyDict_SetItem(data, (tracename, lineno), None)` seen on keys only:
inserting an already-present key leaves the dict unchanged. -/
def dataInsert (d : List (String × Int)) (p : String × Int) :
    List (String × Int) :=
  if p ∈ d then d else d ++ [p]

/-- `strstr(hay, needle) != NULL` on the character lists of the strings. -/
def hasInfix (needle : List Char) : List Char → Bool
  | [] => needle.isEmpty
  | c :: t => needle.isPrefixOf (c :: t) || hasInfix needle t

/-- The filename marker of the anomalous component (pyexpat). -/
def pyexpat_marker : String := "pyexpat.c"

/-- The tail of the PyTrace_CALL case of `Tracer_trace`, from the line
`filename = frame->f_code->co_filename;` on: the cache lookup, the call
into `should_trace` on a miss, and the store into `tracenames[depth]`.
`self.depth` has already been incremented and the array already grown. -/
def trace_store (self : TracerState) (tracename : PyVal) : TracerState :=
  match tracename with
  | PyVal.str t =>
      { self with tracenames := self.tracenames.set self.depth.toNat (Slot.name t) }
  | PyVal.nonstr =>
      { self with tracenames := self.tracenames.set self.depth.toNat Slot.null }

/-- Cache lookup and decision part of the PyTrace_CALL case.  On a cache
hit the cached object is reused (only its refcount is touched in C).  On
a miss `should_trace` is invoked (recorded in ghost `st_calls`); if it
fails (returns NULL) the function returns -1 with the cache unmodified;
otherwise the raw result is stored in the cache and then in the array. -/
def trace_call_decide (should_trace : String → Frame → Option PyVal)
    (self : TracerState) (frame : Frame) : Except TracerState TracerState :=
  match dictGet self.should_trace_cache frame.filename with
  | some tracename => Except.ok (trace_store self tracename)
  | none =>
      let self := { self with st_calls := self.st_calls ++ [frame.filename] }
      match should_trace frame.filename frame with
      | none => Except.error self
      | some tracename =>
          Except.ok (trace_store
            { self with
                should_trace_cache :=
                  dictSet self.should_trace_cache frame.filename tracename }
            tracename)

/-- The PyTrace_CALL case of `Tracer_trace`: `self->depth++`, grow the
`tracenames` array by TRACENAMES_DELTA entries when `depth` has reached
`tracenames_alloc` (on realloc failure: `self->depth--; return -1;`),
then decide and store. -/
def trace_call (should_trace : String → Frame → Option PyVal) (allocOk : Bool)
    (self0 : TracerState) (frame : Frame) : Except TracerState TracerState :=
  let self := { self0 with depth := self0.depth + 1 }
  if (self.tracenames.length : Int) ≤ self.depth then
    if allocOk then
      trace_call_decide should_trace
        { self with
            tracenames := self.tracenames ++ List.replicate TRACENAMES_DELTA Slot.uninit }
        frame
    else
      Except.error { self with depth := self.depth - 1 }
  else
    trace_call_decide should_trace self frame

/-- The `switch (what)` statement of `Tracer_trace`: CALL, RETURN and
LINE cases; EXCEPTION (and anything else) falls through with no effect. -/
def trace_switch (should_trace : String → Frame → Option PyVal) (allocOk : Bool)
    (self : TracerState) (what : What) (frame : Frame) :
    Except TracerState TracerState :=
  match what with
  | What.call => trace_call should_trace allocOk self frame
  | What.ret =>
      if 0 ≤ self.depth then
        Except.ok { self with depth := self.depth - 1 }
      else
        Except.ok self
  | What.line =>
      if 0 ≤ self.depth then
        match self.tracenames.getD self.depth.toNat Slot.uninit with
        | Slot.name t =>
            Except.ok { self with data := dataInsert self.data (t, frame.lineno) }
        | _ => Except.ok self
      else
        Except.ok self
  | What.exc => Except.ok self

/-- `Tracer_trace`: the switch, followed by the pyexpat workaround — if
the event is PyTrace_EXCEPTION and the frame's filename contains
"pyexpat.c", one PyTrace_RETURN event is synthesized and processed
through the handler (since its `what` is RETURN, the trailing check
does not fire again, so that self-invocation is exactly the switch). -/
def Tracer_trace (should_trace : String → Frame → Option PyVal) (allocOk : Bool)
    (self : TracerState) (what : What) (frame : Frame) :
    Except TracerState TracerState :=
  match trace_switch should_trace allocOk self what frame with
  | Except.error s => Except.error s
  | Except.ok s =>
      if what = What.exc ∧ hasInfix pyexpat_marker.data frame.filename.data = true then
        trace_switch should_trace allocOk s What.ret frame
      else
        Except.ok s

/-- One event delivered by the host: the kind, the frame, and the
allocation oracle for any realloc attempted while handling it. -/
structure Event where
  allocOk : Bool
  what : What
  frame : Frame
deriving DecidableEq

/-- Process a list of events in order, stopping at the first error
(returning -1 from the trace function makes the host unhook the tracer,
so no further events are delivered). -/
def runTrace (should_trace : String → Frame → Option PyVal)
    (events : List Event) (self : TracerState) : Except TracerState TracerState :=
  match events with
  | [] => Except.ok self
  | e :: rest =>
      match Tracer_trace should_trace e.allocOk self e.what e.frame with
      | Except.ok s => runTrace should_trace rest s
      | Except.error s => Except.error s

/-- The state reached, whether the computation ended in ok or error. -/
def runState (r : Except TracerState TracerState) : TracerState :=
  match r with
  | Except.ok s => s
  | Except.error s => s

/-- `Tracer_init`: depth = -1, an array of TRACENAMES_DELTA uninitialized
entries, empty dicts. -/
def Tracer_init : TracerState :=
  { should_trace_cache := []
    data := []
    depth := -1
    tracenames := List.replicate TRACENAMES_DELTA Slot.uninit
    st_calls := [] }

/-- How the CALL case interprets a `should_trace` result when storing it
at the current depth: a string means trace under that name, anything
else means skip.  (This reflects `PyString_Check(tracename)`.) -/
def slotOfVal : PyVal → Slot
  | PyVal.str t => Slot.name t
  | PyVal.nonstr => Slot.null

/-- Properly nested, balanced sequences of Call/Return events: empty, or
a Call, a balanced body, its matching Return, and a balanced rest. -/
inductive BalancedEvents : List Event → Prop
  | nil : BalancedEvents []
  | node (e e' : Event) (es es' : List Event) :
      e.what = What.call → e'.what = What.ret →
      BalancedEvents es → BalancedEvents es' →
      BalancedEvents (e :: es ++ e' :: es')

/-- Concrete decision function for witnesses: traces "a.py" under the
name "a.py", declines "b.py", fails on anything else. -/
def stW : String → Frame → Option PyVal := fun f _ =>
  if f = "a.py" then some (PyVal.str "a.py")
  else if f = "b.py" then some PyVal.nonstr
  else none

/-- Concrete frame for witnesses. -/
def frW : Frame := Frame.mk "a.py" 10

/-- Concrete frame inside the anomalous component, for witnesses. -/
def frPyW : Frame := Frame.mk "pyexpat.c" 3

/-- Decision function that always fails, for witnesses. -/
def stNoneW : String → Frame → Option PyVal := fun _ _ => none

/-- Decision function that traces everything, for witnesses. -/
def stPyW : String → Frame → Option PyVal := fun _ _ => some (PyVal.str "pyexpat.c")

/-- Concrete state with one active traced frame, for witnesses. -/
def sLineW : TracerState := TracerState.mk [] [] 0 [Slot.name "a.py"] []

/-- Concrete state with an empty conceptual stack but a stale slot left
by an earlier call, for witnesses. -/
def sStaleW : TracerState := TracerState.mk [] [] (-1) [Slot.name "old.py"] []

/-- Concrete state whose array is full (next call must grow it), for
witnesses. -/
def sFullW : TracerState := { Tracer_init with depth := 99 }

/-- Concrete frame whose decision under `stW` fails, for witnesses. -/
def frBadW : Frame := Frame.mk "bad.py" 7

/-- State after one Call event on `frW` from the initial state, for
witnesses. -/
def sCallW : TracerState := runState (Tracer_trace stW true Tracer_init What.call frW)

/-- State after a balanced Call/Return pair on `frW` from the initial
state, for witnesses. -/
def sBalW : TracerState :=
  runState (runTrace stW [Event.mk true What.call frW, Event.mk true What.ret frW] Tracer_init)

/-- Invariant tying the ghost invocation log to the cache: every unit on
which `should_trace` has been invoked is cached (so it is never invoked
again), and no unit appears twice in the log. -/
def CacheInv (s : TracerState) : Prop :=
  (∀ f, f ∈ s.st_calls → (dictGet s.should_trace_cache f).isSome = true) ∧
    s.st_calls.Nodup

theorem trace_store_eq (s : TracerState) (v : PyVal) :
    trace_store s v =
      { s with tracenames := s.tracenames.set s.depth.toNat (slotOfVal v) } := by
  cases v <;> rfl

theorem trace_switch_ret (st : String → Frame → Option PyVal) (a : Bool)
    (s : TracerState) (fr : Frame) :
    trace_switch st a s What.ret fr =
      if 0 ≤ s.depth then Except.ok { s with depth := s.depth - 1 }
      else Except.ok s := rfl

theorem trace_switch_line (st : String → Frame → Option PyVal) (a : Bool)
    (s : TracerState) (fr : Frame) :
    trace_switch st a s What.line fr =
      (if 0 ≤ s.depth then
        match s.tracenames.getD s.depth.toNat Slot.uninit with
        | Slot.name t =>
            Except.ok { s with data := dataInsert s.data (t, fr.lineno) }
        | _ => Except.ok s
      else Except.ok s) := rfl

theorem trace_switch_exc (st : String → Frame → Option PyVal) (a : Bool)
    (s : TracerState) (fr : Frame) :
    trace_switch st a s What.exc fr = Except.ok s := rfl

theorem Tracer_trace_call_eq (st : String → Frame → Option PyVal) (a : Bool)
    (s : TracerState) (fr : Frame) :
    Tracer_trace st a s What.call fr = trace_call st a s fr := by
  unfold Tracer_trace
  cases h : trace_switch st a s What.call fr with
  | ok s' => simp [h]; exact h.symm
  | error s' => simp [h]; exact h.symm

theorem Tracer_trace_ret_eq (st : String → Frame → Option PyVal) (a : Bool)
    (s : TracerState) (fr : Frame) :
    Tracer_trace st a s What.ret fr = trace_switch st a s What.ret fr := by
  unfold Tracer_trace
  cases h : trace_switch st a s What.ret fr with
  | ok s' => simp [h]
  | error s' => simp [h]

theorem Tracer_trace_line_eq (st : String → Frame → Option PyVal) (a : Bool)
    (s : TracerState) (fr : Frame) :
    Tracer_trace st a s What.line fr = trace_switch st a s What.line fr := by
  unfold Tracer_trace
  cases h : trace_switch st a s What.line fr with
  | ok s' => simp [h]
  | error s' => simp [h]

theorem Tracer_trace_exc_eq (st : String → Frame → Option PyVal) (a : Bool)
    (s : TracerState) (fr : Frame) :
    Tracer_trace st a s What.exc fr =
      (if hasInfix pyexpat_marker.data fr.filename.data = true then
        trace_switch st a s What.ret fr
      else Except.ok s) := by
  unfold Tracer_trace
  rw [trace_switch_exc]
  by_cases h : hasInfix pyexpat_marker.data fr.filename.data = true <;> simp [h]

theorem dictGet_dictSet (d : List (String × PyVal)) (k k' : String) (v : PyVal) :
    dictGet (dictSet d k v) k' = if k = k' then some v else dictGet d k' := by
  induction d with
  | nil => by_cases h : k = k' <;> simp [dictGet, dictSet, h]
  | cons p rest ih =>
      obtain ⟨k₀, v₀⟩ := p
      by_cases h0 : k₀ = k
      · subst h0
        by_cases h : k₀ = k' <;> simp [dictGet, dictSet, h]
      · by_cases h : k₀ = k'
        · subst h
          have hk : ¬ k = k₀ := fun hh => h0 hh.symm
          simp [dictGet, dictSet, h0, hk]
        · simp [dictGet, dictSet, h0, h, ih]

theorem getD_set_self {α : Type} (l : List α) (n : Nat) (x d : α)
    (h : n < l.length) : (l.set n x).getD n d = x := by
  induction l generalizing n with
  | nil => simp at h
  | cons a t ih =>
      cases n with
      | zero => simp
      | succ m =>
          simp only [List.set_cons_succ, List.getD_cons_succ]
          exact ih m (by simpa using h)

theorem mem_dataInsert_self (d : List (String × Int)) (p : String × Int) :
    p ∈ dataInsert d p := by
  unfold dataInsert
  split_ifs with h
  · exact h
  · simp

/-- Claim C7: if growing the depth stack fails on a Call event, the
existing stack contents are untouched, the just-incremented depth is
decremented back, the failure is propagated (-1) and the tracer is left
exactly in its prior state. -/
theorem Tracer_alloc_failure_rollback (st : String → Frame → Option PyVal)
    (s : TracerState) (fr : Frame)
    (hfull : (s.tracenames.length : Int) ≤ s.depth + 1) :
    Tracer_trace st false s What.call fr = Except.error s := by
  rw [Tracer_trace_call_eq]
  unfold trace_call
  simp only [if_pos hfull, if_neg (by simp : ¬ (false = true))]
  have : s.depth + 1 - 1 = s.depth := by omega
  simp [this]

/-- Witness for C7: a concrete state at depth 99 with a 100-entry array
hits the rollback path. -/
theorem Tracer_alloc_failure_rollback_witness :
    Tracer_trace stW false sFullW What.call frW = Except.error sFullW :=
  Tracer_alloc_failure_rollback stW sFullW frW (by decide)

/-- Claim C9: a Return event with an empty conceptual stack
(current_depth < 0) is a silent no-op: no error, state unchanged. -/
theorem Tracer_return_empty_noop (st : String → Frame → Option PyVal) (a : Bool)
    (s : TracerState) (fr : Frame) (h : s.depth < 0) :
    Tracer_trace st a s What.ret fr = Except.ok s := by
  rw [Tracer_trace_ret_eq, trace_switch_ret, if_neg (by omega)]

/-- Witness for C9: Return on the freshly initialized tracer (depth -1)
leaves it unchanged. -/
theorem Tracer_return_empty_noop_witness :
    Tracer_trace stW true Tracer_init What.ret frW = Except.ok Tracer_init :=
  Tracer_return_empty_noop stW true Tracer_init frW (by decide)

theorem trace_call_decide_hit (st : String → Frame → Option PyVal)
    (s : TracerState) (fr : Frame) (v : PyVal)
    (h : dictGet s.should_trace_cache fr.filename = some v) :
    trace_call_decide st s fr = Except.ok (trace_store s v) := by
  unfold trace_call_decide
  rw [h]

theorem trace_call_decide_miss_err (st : String → Frame → Option PyVal)
    (s : TracerState) (fr : Frame)
    (hmiss : dictGet s.should_trace_cache fr.filename = none)
    (hst : st fr.filename fr = none) :
    trace_call_decide st s fr =
      Except.error { s with st_calls := s.st_calls ++ [fr.filename] } := by
  unfold trace_call_decide
  rw [hmiss]
  simp only [hst]

theorem trace_call_decide_miss_some (st : String → Frame → Option PyVal)
    (s : TracerState) (fr : Frame) (v : PyVal)
    (hmiss : dictGet s.should_trace_cache fr.filename = none)
    (hst : st fr.filename fr = some v) :
    trace_call_decide st s fr =
      Except.ok (trace_store
        { s with
            should_trace_cache := dictSet s.should_trace_cache fr.filename v
            st_calls := s.st_calls ++ [fr.filename] } v) := by
  unfold trace_call_decide
  rw [hmiss]
  simp only [hst]

theorem trace_call_no_grow (st : String → Frame → Option PyVal) (a : Bool)
    (s : TracerState) (fr : Frame)
    (h : s.depth + 1 < (s.tracenames.length : Int)) :
    trace_call st a s fr =
      trace_call_decide st { s with depth := s.depth + 1 } fr := by
  unfold trace_call
  dsimp only
  rw [if_neg (by omega)]

theorem trace_call_grow (st : String → Frame → Option PyVal)
    (s : TracerState) (fr : Frame)
    (h : (s.tracenames.length : Int) ≤ s.depth + 1) :
    trace_call st true s fr =
      trace_call_decide st
        { s with
            depth := s.depth + 1
            tracenames := s.tracenames ++ List.replicate TRACENAMES_DELTA Slot.uninit }
        fr := by
  unfold trace_call
  rw [if_pos h]
  simp

/-- Claim C2: on a Line event with an active frame whose slot holds a
tracename, the pair (tracename, lineno) is inserted into the data dict;
with a NULL slot, or with an empty stack, the state is unchanged. -/
theorem Tracer_line_hit (st : String → Frame → Option PyVal) (a : Bool)
    (s : TracerState) (fr : Frame) :
    (∀ t : String, 0 ≤ s.depth →
      s.tracenames.getD s.depth.toNat Slot.uninit = Slot.name t →
      Tracer_trace st a s What.line fr =
        Except.ok { s with data := dataInsert s.data (t, fr.lineno) } ∧
      (t, fr.lineno) ∈ dataInsert s.data (t, fr.lineno)) ∧
    (0 ≤ s.depth →
      s.tracenames.getD s.depth.toNat Slot.uninit = Slot.null →
      Tracer_trace st a s What.line fr = Except.ok s) ∧
    (s.depth < 0 → Tracer_trace st a s What.line fr = Except.ok s) := by
  refine ⟨?_, ?_, ?_⟩
  · intro t hd hslot
    rw [Tracer_trace_line_eq, trace_switch_line, if_pos hd, hslot]
    exact ⟨rfl, mem_dataInsert_self _ _⟩
  · intro hd hslot
    rw [Tracer_trace_line_eq, trace_switch_line, if_pos hd, hslot]
  · intro hd
    rw [Tracer_trace_line_eq, trace_switch_line, if_neg (by omega)]

/-- Witness for C2: a Line event at depth 0 under the tracename "a.py"
records ("a.py", 10). -/
theorem Tracer_line_hit_witness :
    Tracer_trace stW true sLineW What.line frW =
      Except.ok { sLineW with data := dataInsert sLineW.data ("a.py", 10) } ∧
    ("a.py", 10) ∈ dataInsert sLineW.data ("a.py", 10) :=
  (Tracer_line_hit stW true sLineW frW).1 "a.py" (by decide) (by decide)

/-- Claim C4: on a Call event with a cache miss whose decision succeeds,
the raw result is stored in the decision cache under the filename and the
slot at the new depth holds its interpretation: a string result is stored
as that tracename, any non-string result as NULL (skip).  (In the C code
the cache stores the raw object returned by should_trace; its
interpretation via PyString_Check — `slotOfVal` here — is what the spec
calls the TraceDecision.)  The cache write happens before the slot write
in the embedding, in source order. -/
theorem Tracer_call_cache_miss_stores (st : String → Frame → Option PyVal)
    (s : TracerState) (fr : Frame) (v : PyVal)
    (hd : -1 ≤ s.depth) (hlen : s.depth < (s.tracenames.length : Int))
    (hmiss : dictGet s.should_trace_cache fr.filename = none)
    (hst : st fr.filename fr = some v) :
    ∃ s', Tracer_trace st true s What.call fr = Except.ok s' ∧
      dictGet s'.should_trace_cache fr.filename = some v ∧
      s'.depth = s.depth + 1 ∧
      s'.tracenames.getD s'.depth.toNat Slot.uninit = slotOfVal v := by
  rw [Tracer_trace_call_eq]
  by_cases hg : (s.tracenames.length : Int) ≤ s.depth + 1
  · rw [trace_call_grow st s fr hg,
      trace_call_decide_miss_some st
        { s with
            depth := s.depth + 1
            tracenames := s.tracenames ++ List.replicate TRACENAMES_DELTA Slot.uninit }
        fr v hmiss hst,
      trace_store_eq]
    refine ⟨_, rfl, ?_, rfl, ?_⟩
    · simp [dictGet_dictSet]
    · have hb : (s.depth + 1).toNat <
          (s.tracenames ++ List.replicate TRACENAMES_DELTA Slot.uninit).length := by
        simp only [List.length_append, List.length_replicate, TRACENAMES_DELTA]
        omega
      exact getD_set_self _ _ _ _ hb
  · rw [trace_call_no_grow st true s fr (by omega),
      trace_call_decide_miss_some st { s with depth := s.depth + 1 } fr v hmiss hst,
      trace_store_eq]
    refine ⟨_, rfl, ?_, rfl, ?_⟩
    · simp [dictGet_dictSet]
    · have hb : (s.depth + 1).toNat < s.tracenames.length := by omega
      exact getD_set_self _ _ _ _ hb

/-- Witness for C4: the first Call on "a.py" caches the string result
and stores the tracename at depth 0. -/
theorem Tracer_call_cache_miss_stores_witness :
    ∃ s', Tracer_trace stW true Tracer_init What.call frW = Except.ok s' ∧
      dictGet s'.should_trace_cache frW.filename = some (PyVal.str "a.py") ∧
      s'.depth = Tracer_init.depth + 1 ∧
      s'.tracenames.getD s'.depth.toNat Slot.uninit = slotOfVal (PyVal.str "a.py") :=
  Tracer_call_cache_miss_stores stW Tracer_init frW (PyVal.str "a.py")
    (by decide) (by decide) (by decide) (by decide)

/-- Claim C6: when should_trace fails on a Call event, the failure is
propagated as -1 immediately, the decision cache is unmodified, data is
untouched, the depth is left incremented and the array contents are left
intact (possibly extended by the growth step). -/
theorem Tracer_decision_error_propagates (st : String → Frame → Option PyVal)
    (s : TracerState) (fr : Frame)
    (hmiss : dictGet s.should_trace_cache fr.filename = none)
    (hst : st fr.filename fr = none) :
    ∃ s', Tracer_trace st true s What.call fr = Except.error s' ∧
      s'.should_trace_cache = s.should_trace_cache ∧
      s'.depth = s.depth + 1 ∧
      s'.data = s.data ∧
      ∃ ext, s'.tracenames = s.tracenames ++ ext := by
  rw [Tracer_trace_call_eq]
  by_cases hg : (s.tracenames.length : Int) ≤ s.depth + 1
  · rw [trace_call_grow st s fr hg,
      trace_call_decide_miss_err st
        { s with
            depth := s.depth + 1
            tracenames := s.tracenames ++ List.replicate TRACENAMES_DELTA Slot.uninit }
        fr hmiss hst]
    exact ⟨_, rfl, rfl, rfl, rfl, ⟨_, rfl⟩⟩
  · rw [trace_call_no_grow st true s fr (by omega),
      trace_call_decide_miss_err st { s with depth := s.depth + 1 } fr hmiss hst]
    exact ⟨_, rfl, rfl, rfl, rfl, ⟨[], by simp⟩⟩

/-- Witness for C6: a failing decision on the first Call leaves the
cache empty and the depth at 0. -/
theorem Tracer_decision_error_propagates_witness :
    ∃ s', Tracer_trace stNoneW true Tracer_init What.call frW = Except.error s' ∧
      s'.should_trace_cache = Tracer_init.should_trace_cache ∧
      s'.depth = Tracer_init.depth + 1 ∧
      s'.data = Tracer_init.data ∧
      ∃ ext, s'.tracenames = Tracer_init.tracenames ++ ext :=
  Tracer_decision_error_propagates stNoneW Tracer_init frW (by decide) (by decide)

/-- Claim C10: when should_trace fails on a Call event, the slot at the
newly incremented depth is not written: it keeps whatever an earlier,
deeper call left there, and a subsequent Line event at that depth records
the hit under that stale tracename. -/
theorem Tracer_stale_slot_after_decision_error (st : String → Frame → Option PyVal)
    (s : TracerState) (frc frl : Frame) (t : String)
    (hd : -1 ≤ s.depth)
    (hmiss : dictGet s.should_trace_cache frc.filename = none)
    (hst : st frc.filename frc = none)
    (hstale : s.tracenames.getD (s.depth + 1).toNat Slot.uninit = Slot.name t) :
    ∃ s', Tracer_trace st true s What.call frc = Except.error s' ∧
      s'.tracenames = s.tracenames ∧
      s'.depth = s.depth + 1 ∧
      ∃ s'', Tracer_trace st true s' What.line frl = Except.ok s'' ∧
        (t, frl.lineno) ∈ s''.data := by
  have hbound : (s.depth + 1).toNat < s.tracenames.length := by
    by_contra hle
    rw [List.getD_eq_default s.tracenames Slot.uninit (by omega)] at hstale
    exact absurd hstale (by simp)
  rw [Tracer_trace_call_eq, trace_call_no_grow st true s frc (by omega),
    trace_call_decide_miss_err st { s with depth := s.depth + 1 } frc hmiss hst]
  refine ⟨_, rfl, rfl, rfl, ?_⟩
  rw [Tracer_trace_line_eq, trace_switch_line]
  dsimp only
  rw [if_pos (by omega), hstale]
  exact ⟨_, rfl, mem_dataInsert_self _ _⟩

/-- Witness for C10: from a state whose slot 0 still holds "old.py",
a failing Call on "bad.py" followed by a Line event records
("old.py", 7). -/
theorem Tracer_stale_slot_after_decision_error_witness :
    ∃ s', Tracer_trace stNoneW true sStaleW What.call frBadW = Except.error s' ∧
      s'.tracenames = sStaleW.tracenames ∧
      s'.depth = sStaleW.depth + 1 ∧
      ∃ s'', Tracer_trace stNoneW true s' What.line frBadW = Except.ok s'' ∧
        ("old.py", frBadW.lineno) ∈ s''.data :=
  Tracer_stale_slot_after_decision_error stNoneW sStaleW frBadW frBadW "old.py"
    (by decide) (by decide) (by decide) (by decide)

theorem trace_call_decide_ok_shape (st : String → Frame → Option PyVal)
    (s : TracerState) (fr : Frame) (s' : TracerState)
    (h : trace_call_decide st s fr = Except.ok s') :
    s'.depth = s.depth ∧ s'.tracenames.length = s.tracenames.length := by
  unfold trace_call_decide at h
  cases hg : dictGet s.should_trace_cache fr.filename with
  | some v =>
      rw [hg] at h
      simp only [Except.ok.injEq] at h
      subst h
      rw [trace_store_eq]
      simp
  | none =>
      rw [hg] at h
      dsimp only at h
      cases hst : st fr.filename fr with
      | none => rw [hst] at h; cases h
      | some v =>
          rw [hst] at h
          simp only [Except.ok.injEq] at h
          subst h
          rw [trace_store_eq]
          simp

theorem trace_call_ok_shape (st : String → Frame → Option PyVal) (a : Bool)
    (s : TracerState) (fr : Frame) (s' : TracerState)
    (h : trace_call st a s fr = Except.ok s') :
    s'.depth = s.depth + 1 ∧
    ((s.depth + 1 < (s.tracenames.length : Int) ∧
        s'.tracenames.length = s.tracenames.length) ∨
      ((s.tracenames.length : Int) ≤ s.depth + 1 ∧
        s'.tracenames.length = s.tracenames.length + TRACENAMES_DELTA)) := by
  unfold trace_call at h
  dsimp only at h
  by_cases hg : (s.tracenames.length : Int) ≤ s.depth + 1
  · rw [if_pos hg] at h
    cases a with
    | false => simp at h
    | true =>
        rw [if_pos rfl] at h
        have hsh := trace_call_decide_ok_shape st _ fr s' h
        dsimp only at hsh
        refine ⟨by omega, Or.inr ⟨hg, ?_⟩⟩
        rw [hsh.2]
        simp
  · rw [if_neg hg] at h
    have hsh := trace_call_decide_ok_shape st _ fr s' h
    dsimp only at hsh
    exact ⟨by omega, Or.inl ⟨by omega, hsh.2⟩⟩

theorem trace_ret_ok_shape (st : String → Frame → Option PyVal) (a : Bool)
    (s : TracerState) (fr : Frame) (s' : TracerState)
    (h : trace_switch st a s What.ret fr = Except.ok s') :
    (0 ≤ s.depth ∧ s' = { s with depth := s.depth - 1 }) ∨
      (s.depth < 0 ∧ s' = s) := by
  rw [trace_switch_ret] at h
  split at h
  · simp only [Except.ok.injEq] at h
    exact Or.inl ⟨by assumption, h.symm⟩
  · simp only [Except.ok.injEq] at h
    exact Or.inr ⟨by omega, h.symm⟩

theorem trace_line_ok_shape (st : String → Frame → Option PyVal) (a : Bool)
    (s : TracerState) (fr : Frame) (s' : TracerState)
    (h : trace_switch st a s What.line fr = Except.ok s') :
    s'.depth = s.depth ∧ s'.tracenames = s.tracenames := by
  rw [trace_switch_line] at h
  split at h
  · split at h <;>
      (simp only [Except.ok.injEq] at h; subst h; simp)
  · simp only [Except.ok.injEq] at h
    subst h
    exact ⟨rfl, rfl⟩

theorem trace_switch_capacity (st : String → Frame → Option PyVal) (a : Bool)
    (s : TracerState) (what : What) (fr : Frame) (s' : TracerState)
    (hinv : 0 ≤ s.depth → s.depth < (s.tracenames.length : Int))
    (hok : trace_switch st a s what fr = Except.ok s') :
    0 ≤ s'.depth → s'.depth < (s'.tracenames.length : Int) := by
  intro hd'
  cases what with
  | call =>
      obtain ⟨hdep, hlen⟩ := trace_call_ok_shape st a s fr s' hok
      have hT : TRACENAMES_DELTA = 100 := rfl
      rcases hlen with ⟨hng, hsame⟩ | ⟨hg, hgrow⟩
      · omega
      · by_cases h0 : 0 ≤ s.depth
        · have := hinv h0
          omega
        · omega
  | ret =>
      rcases trace_ret_ok_shape st a s fr s' hok with ⟨h0, rfl⟩ | ⟨h0, rfl⟩
      · have := hinv h0
        dsimp only at hd' ⊢
        omega
      · exact hinv hd'
  | line =>
      obtain ⟨hdep, hlen⟩ := trace_line_ok_shape st a s fr s' hok
      rw [hdep, hlen]
      exact hinv (by omega)
  | exc =>
      rw [trace_switch_exc] at hok
      simp only [Except.ok.injEq] at hok
      subst hok
      exact hinv hd'

/-- Claim C8: the invariant "whenever current_depth is at least 0 it is
strictly below the allocated capacity of the tracenames array" is
preserved by every successfully processed event, so the decision for the
current frame is always stored within capacity. -/
theorem Tracer_depth_capacity_invariant (st : String → Frame → Option PyVal)
    (a : Bool) (s s' : TracerState) (what : What) (fr : Frame)
    (hinv : 0 ≤ s.depth → s.depth < (s.tracenames.length : Int))
    (hok : Tracer_trace st a s what fr = Except.ok s') :
    0 ≤ s'.depth → s'.depth < (s'.tracenames.length : Int) := by
  unfold Tracer_trace at hok
  cases hsw : trace_switch st a s what fr with
  | error x => rw [hsw] at hok; cases hok
  | ok smid =>
      rw [hsw] at hok
      dsimp only at hok
      have hmid := trace_switch_capacity st a s what fr smid hinv hsw
      by_cases hcond : what = What.exc ∧ hasInfix pyexpat_marker.data fr.filename.data = true
      · rw [if_pos hcond] at hok
        exact trace_switch_capacity st a smid What.ret fr s' hmid hok
      · rw [if_neg hcond] at hok
        simp only [Except.ok.injEq] at hok
        subst hok
        exact hmid

/-- Witness for C8: the state after the first Call from the initial
state keeps depth (0) below capacity (100). -/
theorem Tracer_depth_capacity_invariant_witness :
    sCallW.depth < (sCallW.tracenames.length : Int) :=
  Tracer_depth_capacity_invariant stW true Tracer_init sCallW What.call frW
    (by decide) rfl (by decide)

/-- Claim C5: an Exception event whose frame filename contains
"pyexpat.c" is handled exactly like processing the Exception (a no-op)
followed by one synthesized Return through the same handler — the
handler on the Exception equals the handler on a Return, and since the
synthesized event is a Return the workaround check cannot fire again, so
the self-invocation is bounded to depth 1.  In particular a Call at
depth 0 for the anomalous unit followed by such an Exception with no
Return brings the depth back to -1. -/
theorem Tracer_pyexpat_exception_return (st : String → Frame → Option PyVal)
    (a : Bool) (s : TracerState) (fr : Frame)
    (hmark : hasInfix pyexpat_marker.data fr.filename.data = true) :
    Tracer_trace st a s What.exc fr = Tracer_trace st a s What.ret fr ∧
    (∀ v, st fr.filename fr = some v →
      ∃ s', runTrace st [Event.mk true What.call fr, Event.mk true What.exc fr]
          Tracer_init = Except.ok s' ∧ s'.depth = -1) := by
  constructor
  · rw [Tracer_trace_exc_eq, if_pos hmark, Tracer_trace_ret_eq]
  · intro v hv
    have hmiss : dictGet Tracer_init.should_trace_cache fr.filename = none := rfl
    have hng : Tracer_init.depth + 1 < (Tracer_init.tracenames.length : Int) := by
      decide
    have h1 : Tracer_trace st true Tracer_init What.call fr =
        Except.ok (trace_store
          { Tracer_init with
              depth := Tracer_init.depth + 1
              should_trace_cache :=
                dictSet Tracer_init.should_trace_cache fr.filename v
              st_calls := Tracer_init.st_calls ++ [fr.filename] } v) := by
      rw [Tracer_trace_call_eq, trace_call_no_grow st true Tracer_init fr hng,
        trace_call_decide_miss_some st { Tracer_init with depth := Tracer_init.depth + 1 }
          fr v hmiss hv]
    set s1 := trace_store
      { Tracer_init with
          depth := Tracer_init.depth + 1
          should_trace_cache := dictSet Tracer_init.should_trace_cache fr.filename v
          st_calls := Tracer_init.st_calls ++ [fr.filename] } v with hs1
    have hd1 : s1.depth = 0 := by
      rw [hs1, trace_store_eq]
      rfl
    have h2 : Tracer_trace st true s1 What.exc fr =
        Except.ok { s1 with depth := s1.depth - 1 } := by
      rw [Tracer_trace_exc_eq, if_pos hmark, trace_switch_ret, if_pos (by omega)]
    refine ⟨{ s1 with depth := s1.depth - 1 }, ?_, by simp [hd1]⟩
    simp only [runTrace]
    rw [h1]
    dsimp only
    rw [h2]

/-- Witness for C5: the concrete scenario with filename "pyexpat.c". -/
theorem Tracer_pyexpat_exception_return_witness :
    ∃ s', runTrace stPyW [Event.mk true What.call frPyW, Event.mk true What.exc frPyW]
        Tracer_init = Except.ok s' ∧ s'.depth = -1 :=
  (Tracer_pyexpat_exception_return stPyW true Tracer_init frPyW (by decide)).2
    (PyVal.str "pyexpat.c") (by decide)

theorem runTrace_append (st : String → Frame → Option PyVal)
    (a b : List Event) (s : TracerState) :
    runTrace st (a ++ b) s =
      match runTrace st a s with
      | Except.ok m => runTrace st b m
      | Except.error x => Except.error x := by
  induction a generalizing s with
  | nil => simp [runTrace]
  | cons e t ih =>
      simp only [List.cons_append, runTrace]
      cases h : Tracer_trace st e.allocOk s e.what e.frame with
      | ok m => exact ih m
      | error x => rfl

theorem Tracer_call_ok_depth (st : String → Frame → Option PyVal) (a : Bool)
    (s : TracerState) (fr : Frame) (s' : TracerState)
    (h : Tracer_trace st a s What.call fr = Except.ok s') :
    s'.depth = s.depth + 1 := by
  rw [Tracer_trace_call_eq] at h
  exact (trace_call_ok_shape st a s fr s' h).1

theorem Tracer_ret_ok_depth (st : String → Frame → Option PyVal) (a : Bool)
    (s : TracerState) (fr : Frame) (s' : TracerState)
    (hd : 0 ≤ s.depth)
    (h : Tracer_trace st a s What.ret fr = Except.ok s') :
    s'.depth = s.depth - 1 := by
  rw [Tracer_trace_ret_eq] at h
  rcases trace_ret_ok_shape st a s fr s' h with ⟨_, rfl⟩ | ⟨h0, rfl⟩
  · rfl
  · omega

theorem runTrace_balanced_depth (st : String → Frame → Option PyVal) :
    ∀ es : List Event, BalancedEvents es →
      ∀ s s' : TracerState, -1 ≤ s.depth →
        runTrace st es s = Except.ok s' → s'.depth = s.depth := by
  intro es hb
  induction hb with
  | nil =>
      intro s s' _ h
      simp only [runTrace, Except.ok.injEq] at h
      subst h
      rfl
  | node e e' es es' hc hr hbes hbes' ih ih' =>
      intro s s' hd h
      simp only [List.cons_append, runTrace] at h
      cases h1 : Tracer_trace st e.allocOk s e.what e.frame with
      | error x => rw [h1] at h; cases h
      | ok s1 =>
          rw [h1] at h
          dsimp only at h
          rw [show es.append (e' :: es') = es ++ e' :: es' from rfl] at h
          rw [runTrace_append] at h
          cases h2 : runTrace st es s1 with
          | error x => rw [h2] at h; dsimp only at h; cases h
          | ok s2 =>
              rw [h2] at h
              dsimp only at h
              simp only [runTrace] at h
              cases h3 : Tracer_trace st e'.allocOk s2 e'.what e'.frame with
              | error x => rw [h3] at h; cases h
              | ok s3 =>
                  rw [h3] at h
                  rw [hc] at h1
                  have d1 : s1.depth = s.depth + 1 :=
                    Tracer_call_ok_depth st e.allocOk s e.frame s1 h1
                  have d2 : s2.depth = s1.depth := ih s1 s2 (by omega) h2
                  rw [hr] at h3
                  have d3 : s3.depth = s2.depth - 1 :=
                    Tracer_ret_ok_depth st e'.allocOk s2 e'.frame s3 (by omega) h3
                  have d4 : s'.depth = s3.depth := ih' s3 s' (by omega) h
                  omega

/-- Claim C1: processing any well-formed, properly nested sequence of
Call/Return events from the initial state (depth -1) to a successful end
leaves current_depth back at -1, i.e. the conceptual depth stack
(entries 0..depth of the array) is empty again. -/
theorem Tracer_balance (st : String → Frame → Option PyVal)
    (es : List Event) (s' : TracerState)
    (hb : BalancedEvents es)
    (h : runTrace st es Tracer_init = Except.ok s') :
    s'.depth = -1 := by
  have hrun := runTrace_balanced_depth st es hb Tracer_init s' (by decide) h
  exact hrun.trans rfl

/-- Witness for C1: the balanced pair Call;Return on "a.py" ends at
depth -1. -/
theorem Tracer_balance_witness :
    ∃ s', runTrace stW [Event.mk true What.call frW, Event.mk true What.ret frW]
        Tracer_init = Except.ok s' ∧ s'.depth = -1 :=
  ⟨sBalW, rfl,
    Tracer_balance stW [Event.mk true What.call frW, Event.mk true What.ret frW] sBalW
      (BalancedEvents.node (Event.mk true What.call frW) (Event.mk true What.ret frW)
        [] [] rfl rfl BalancedEvents.nil BalancedEvents.nil)
      rfl⟩

theorem trace_call_alloc_fail (st : String → Frame → Option PyVal)
    (s : TracerState) (fr : Frame)
    (h : (s.tracenames.length : Int) ≤ s.depth + 1) :
    trace_call st false s fr = Except.error s := by
  unfold trace_call
  dsimp only
  rw [if_pos h]
  have h1 : s.depth + 1 - 1 = s.depth := by omega
  simp [h1]

theorem trace_call_cases (st : String → Frame → Option PyVal) (a : Bool)
    (s : TracerState) (fr : Frame) :
    (∃ T : List Slot, (∃ ext, T = s.tracenames ++ ext) ∧
      ((∃ v, dictGet s.should_trace_cache fr.filename = some v ∧
          trace_call st a s fr =
            Except.ok (trace_store { s with depth := s.depth + 1, tracenames := T } v)) ∨
        (dictGet s.should_trace_cache fr.filename = none ∧
          ((st fr.filename fr = none ∧
              trace_call st a s fr = Except.error
                { s with
                    depth := s.depth + 1
                    tracenames := T
                    st_calls := s.st_calls ++ [fr.filename] }) ∨
            (∃ v, st fr.filename fr = some v ∧
              trace_call st a s fr = Except.ok (trace_store
                { s with
                    depth := s.depth + 1
                    tracenames := T
                    should_trace_cache := dictSet s.should_trace_cache fr.filename v
                    st_calls := s.st_calls ++ [fr.filename] } v)))))) ∨
      trace_call st a s fr = Except.error s := by
  by_cases hg : (s.tracenames.length : Int) ≤ s.depth + 1
  · cases a with
    | false => exact Or.inr (trace_call_alloc_fail st s fr hg)
    | true =>
        left
        refine ⟨s.tracenames ++ List.replicate TRACENAMES_DELTA Slot.uninit,
          ⟨_, rfl⟩, ?_⟩
        cases hc : dictGet s.should_trace_cache fr.filename with
        | some v =>
            left
            refine ⟨v, rfl, ?_⟩
            exact (trace_call_grow st s fr hg).trans
              ((trace_call_decide_hit st
                  { s with
                      depth := s.depth + 1
                      tracenames :=
                        s.tracenames ++ List.replicate TRACENAMES_DELTA Slot.uninit }
                  fr v hc).trans rfl)
        | none =>
            right
            refine ⟨rfl, ?_⟩
            cases hst : st fr.filename fr with
            | none =>
                left
                refine ⟨rfl, ?_⟩
                exact (trace_call_grow st s fr hg).trans
                  ((trace_call_decide_miss_err st
                      { s with
                          depth := s.depth + 1
                          tracenames :=
                            s.tracenames ++ List.replicate TRACENAMES_DELTA Slot.uninit }
                      fr hc hst).trans rfl)
            | some v =>
                right
                refine ⟨v, rfl, ?_⟩
                exact (trace_call_grow st s fr hg).trans
                  ((trace_call_decide_miss_some st
                      { s with
                          depth := s.depth + 1
                          tracenames :=
                            s.tracenames ++ List.replicate TRACENAMES_DELTA Slot.uninit }
                      fr v hc hst).trans rfl)
  · left
    refine ⟨s.tracenames, ⟨[], by simp⟩, ?_⟩
    cases hc : dictGet s.should_trace_cache fr.filename with
    | some v =>
        left
        refine ⟨v, rfl, ?_⟩
        exact (trace_call_no_grow st a s fr (by omega)).trans
          ((trace_call_decide_hit st { s with depth := s.depth + 1 } fr v hc).trans rfl)
    | none =>
        right
        refine ⟨rfl, ?_⟩
        cases hst : st fr.filename fr with
        | none =>
            left
            refine ⟨rfl, ?_⟩
            exact (trace_call_no_grow st a s fr (by omega)).trans
              ((trace_call_decide_miss_err st { s with depth := s.depth + 1 }
                  fr hc hst).trans rfl)
        | some v =>
            right
            refine ⟨v, rfl, ?_⟩
            exact (trace_call_no_grow st a s fr (by omega)).trans
              ((trace_call_decide_miss_some st { s with depth := s.depth + 1 }
                  fr v hc hst).trans rfl)

theorem trace_call_cacheInv (st : String → Frame → Option PyVal) (a : Bool)
    (s : TracerState) (fr : Frame) (hinv : CacheInv s) :
    (∀ s', trace_call st a s fr = Except.ok s' → CacheInv s') ∧
    (∀ s', trace_call st a s fr = Except.error s' → s'.st_calls.Nodup) := by
  rcases trace_call_cases st a s fr with ⟨T, ⟨ext, hT⟩, hcase⟩ | herr
  · rcases hcase with ⟨v, hc, heq⟩ | ⟨hc, hcase2⟩
    · constructor
      · intro s' h
        rw [heq] at h
        simp only [Except.ok.injEq] at h
        subst h
        rw [trace_store_eq]
        exact hinv
      · intro s' h
        rw [heq] at h
        cases h
    · have hfn : fr.filename ∉ s.st_calls := by
        intro hmem
        have hsome := hinv.1 _ hmem
        rw [hc] at hsome
        simp at hsome
      rcases hcase2 with ⟨hst, heq⟩ | ⟨v, hst, heq⟩
      · constructor
        · intro s' h
          rw [heq] at h
          cases h
        · intro s' h
          rw [heq] at h
          simp only [Except.error.injEq] at h
          subst h
          dsimp only
          simp [List.nodup_append, hinv.2, hfn]
      · constructor
        · intro s' h
          rw [heq] at h
          simp only [Except.ok.injEq] at h
          subst h
          rw [trace_store_eq]
          constructor
          · intro g hg2
            dsimp only at hg2 ⊢
            rw [dictGet_dictSet]
            by_cases hgf : fr.filename = g
            · rw [if_pos hgf]
              rfl
            · rw [if_neg hgf]
              rcases List.mem_append.mp hg2 with hmem | hmem
              · exact hinv.1 g hmem
              · simp only [List.mem_singleton] at hmem
                exact absurd hmem.symm hgf
          · dsimp only
            simp [List.nodup_append, hinv.2, hfn]
        · intro s' h
          rw [heq] at h
          cases h
  · constructor
    · intro s' h
      rw [herr] at h
      cases h
    · intro s' h
      rw [herr] at h
      simp only [Except.error.injEq] at h
      subst h
      exact hinv.2

theorem trace_switch_cacheInv (st : String → Frame → Option PyVal) (a : Bool)
    (s : TracerState) (what : What) (fr : Frame) (hinv : CacheInv s) :
    (∀ s', trace_switch st a s what fr = Except.ok s' → CacheInv s') ∧
    (∀ s', trace_switch st a s what fr = Except.error s' → s'.st_calls.Nodup) := by
  cases what with
  | call => exact trace_call_cacheInv st a s fr hinv
  | ret =>
      constructor
      · intro s' h
        rcases trace_ret_ok_shape st a s fr s' h with ⟨_, rfl⟩ | ⟨_, rfl⟩
        · exact hinv
        · exact hinv
      · intro s' h
        rw [trace_switch_ret] at h
        split at h <;> cases h
  | line =>
      constructor
      · intro s' h
        rw [trace_switch_line] at h
        split at h
        · split at h <;> (simp only [Except.ok.injEq] at h; subst h; exact hinv)
        · simp only [Except.ok.injEq] at h
          subst h
          exact hinv
      · intro s' h
        rw [trace_switch_line] at h
        split at h
        · split at h <;> cases h
        · cases h
  | exc =>
      constructor
      · intro s' h
        rw [trace_switch_exc] at h
        simp only [Except.ok.injEq] at h
        subst h
        exact hinv
      · intro s' h
        rw [trace_switch_exc] at h
        cases h

theorem Tracer_trace_cacheInv (st : String → Frame → Option PyVal) (a : Bool)
    (s : TracerState) (what : What) (fr : Frame) (hinv : CacheInv s) :
    (∀ s', Tracer_trace st a s what fr = Except.ok s' → CacheInv s') ∧
    (∀ s', Tracer_trace st a s what fr = Except.error s' → s'.st_calls.Nodup) := by
  have hsw := trace_switch_cacheInv st a s what fr hinv
  constructor
  · intro s' h
    unfold Tracer_trace at h
    cases h1 : trace_switch st a s what fr with
    | error x =>
        rw [h1] at h
        cases h
    | ok smid =>
        rw [h1] at h
        dsimp only at h
        have hmid := hsw.1 smid h1
        split at h
        · exact (trace_switch_cacheInv st a smid What.ret fr hmid).1 s' h
        · simp only [Except.ok.injEq] at h
          subst h
          exact hmid
  · intro s' h
    unfold Tracer_trace at h
    cases h1 : trace_switch st a s what fr with
    | error x =>
        rw [h1] at h
        dsimp only at h
        simp only [Except.error.injEq] at h
        subst h
        exact hsw.2 _ h1
    | ok smid =>
        rw [h1] at h
        dsimp only at h
        have hmid := hsw.1 smid h1
        split at h
        · exact (trace_switch_cacheInv st a smid What.ret fr hmid).2 s' h
        · cases h

theorem runTrace_cacheInv (st : String → Frame → Option PyVal)
    (es : List Event) :
    ∀ s : TracerState, CacheInv s →
      (runState (runTrace st es s)).st_calls.Nodup := by
  induction es with
  | nil => intro s hinv; exact hinv.2
  | cons e rest ih =>
      intro s hinv
      simp only [runTrace]
      cases h : Tracer_trace st e.allocOk s e.what e.frame with
      | ok s1 =>
          exact ih s1 ((Tracer_trace_cacheInv st e.allocOk s e.what e.frame hinv).1 s1 h)
      | error s1 =>
          exact (Tracer_trace_cacheInv st e.allocOk s e.what e.frame hinv).2 s1 h

/-- Claim C3: over any sequence of events processed during one Tracer
lifetime, the should_trace callable is invoked at most once per distinct
filename — on a cache hit the cached object is reused without invoking
it.  (`st_calls` is the ghost log of actual should_trace invocations.) -/
theorem Tracer_memoization (st : String → Frame → Option PyVal)
    (events : List Event) (f : String) :
    ((runState (runTrace st events Tracer_init)).st_calls.count f) ≤ 1 := by
  have hinv0 : CacheInv Tracer_init :=
    ⟨fun g hg => absurd hg (List.not_mem_nil g), List.nodup_nil⟩
  have hnd := runTrace_cacheInv st events Tracer_init hinv0
  exact List.nodup_iff_count_le_one.mp hnd f
